import Mathlib

/-!
Shallow embedding of `src/modellingfluidwithtemperatureandobstacleandexternalforceandturbulance.py`,
a 2D incompressible-fluid solver with temperature, a circular obstacle, body forces and a
Smagorinsky turbulence closure.

Fields are modelled as functions `ℕ → ℕ → α` on an `n × n` grid (only indices `< n` are
meaningful; the differential operators only read in-range entries).  Rational numbers stand in
for the script's floating-point values; real numbers are used where the code takes a square
root.  The scipy conjugate-gradient solver and the transcendental-valued inputs (the sinusoidal
external force, the Gaussian temperature source) are not part of the repository's source, so the
time-stepping pipeline is parametrised over them: a solver is any function returning a candidate
solution together with an integer status flag, exactly the `(x, info)` pair scipy's `cg` returns.
-/

namespace Fluid

/-- Scalar field on the grid: `field[i, j]`. -/
abbrev SField (α : Type) := ℕ → ℕ → α

/-- Two-component vector field on the grid: `field[i, j, :]`. -/
abbrev VField (α : Type) := ℕ → ℕ → α × α

/-- The interior index range `[1, n-2] × [1, n-2]` that the numpy slice
`[1:-1, 1:-1]` assigns; everything else keeps the `np.zeros_like` value. -/
def isInterior (n i j : ℕ) : Prop :=
  (1 ≤ i ∧ i ≤ n - 2) ∧ (1 ≤ j ∧ j ≤ n - 2)

instance (n i j : ℕ) : Decidable (isInterior n i j) := by
  unfold isInterior; infer_instance

/-- `partial_derivative_x`: central difference `(f[i+1,j] - f[i-1,j]) / (2 h)` on the
interior, zero elsewhere. -/
def partial_derivative_x {α : Type} [Field α] (n : ℕ) (h : α) (f : SField α) : SField α :=
  fun i j =>
    if isInterior n i j then
      (f (i + 1) j - f (i - 1) j) / (2 * h)
    else 0

/-- `partial_derivative_y`: central difference `(f[i,j+1] - f[i,j-1]) / (2 h)` on the
interior, zero elsewhere. -/
def partial_derivative_y {α : Type} [Field α] (n : ℕ) (h : α) (f : SField α) : SField α :=
  fun i j =>
    if isInterior n i j then
      (f i (j + 1) - f i (j - 1)) / (2 * h)
    else 0

/-- `laplace`: the 5-point stencil `(f[i-1,j] + f[i,j-1] - 4 f[i,j] + f[i+1,j] + f[i,j+1]) / h²`
on the interior, zero elsewhere. -/
def laplace {α : Type} [Field α] (n : ℕ) (h : α) (f : SField α) : SField α :=
  fun i j =>
    if isInterior n i j then
      (f (i - 1) j + f i (j - 1) - 4 * f i j + f (i + 1) j + f i (j + 1)) / h ^ 2
    else 0

/-- `divergence`: `partial_x(v_x) + partial_y(v_y)`. -/
def divergence {α : Type} [Field α] (n : ℕ) (h : α) (v : VField α) : SField α :=
  fun i j =>
    partial_derivative_x n h (fun a b => (v a b).1) i j
      + partial_derivative_y n h (fun a b => (v a b).2) i j

/-- `gradient`: `(partial_x(f), partial_y(f))`. -/
def gradient {α : Type} [Field α] (n : ℕ) (h : α) (f : SField α) : VField α :=
  fun i j => (partial_derivative_x n h f i j, partial_derivative_y n h f i j)

/-- `curl_2d`: `partial_x(v_y) - partial_y(v_x)`. -/
def curl_2d {α : Type} [Field α] (n : ℕ) (h : α) (v : VField α) : SField α :=
  fun i j =>
    partial_derivative_x n h (fun a b => (v a b).2) i j
      - partial_derivative_y n h (fun a b => (v a b).1) i j

/-- Module-level constant `DOMAIN_SIZE = 1.0`. -/
def DOMAIN_SIZE : ℚ := 1

/-- Module-level constant `N_POINTS = 41`. -/
def N_POINTS : ℕ := 41

/-- Module-level constant `TIME_STEP_LENGTH = 0.1`. -/
def TIME_STEP_LENGTH : ℚ := 1 / 10

/-- Grid spacing `element_length = DOMAIN_SIZE / (N_POINTS - 1)`. -/
def element_length : ℚ := DOMAIN_SIZE / ((N_POINTS : ℚ) - 1)

theorem element_length_eq : element_length = 1 / 40 := by
  norm_num [element_length, DOMAIN_SIZE, N_POINTS]

section OperatorLemmas

variable {α : Type} [Field α]

/-- On a boundary index the interior predicate fails. -/
lemma not_isInterior_of_boundary {n i j : ℕ}
    (hb : i = 0 ∨ i = n - 1 ∨ j = 0 ∨ j = n - 1) : ¬ isInterior n i j := by
  unfold isInterior; omega

lemma pdx_linear (n : ℕ) (h a : α) (f g : SField α) (i j : ℕ) :
    partial_derivative_x n h (fun p q => a * f p q + g p q) i j
      = a * partial_derivative_x n h f i j + partial_derivative_x n h g i j := by
  unfold partial_derivative_x
  split_ifs <;> ring

lemma pdy_linear (n : ℕ) (h a : α) (f g : SField α) (i j : ℕ) :
    partial_derivative_y n h (fun p q => a * f p q + g p q) i j
      = a * partial_derivative_y n h f i j + partial_derivative_y n h g i j := by
  unfold partial_derivative_y
  split_ifs <;> ring

lemma laplace_linear (n : ℕ) (h a : α) (f g : SField α) (i j : ℕ) :
    laplace n h (fun p q => a * f p q + g p q) i j
      = a * laplace n h f i j + laplace n h g i j := by
  unfold laplace
  split_ifs <;> ring

lemma pdx_const (n : ℕ) (h c : α) (i j : ℕ) :
    partial_derivative_x n h (fun _ _ => c) i j = 0 := by
  unfold partial_derivative_x
  split_ifs <;> simp

lemma pdy_const (n : ℕ) (h c : α) (i j : ℕ) :
    partial_derivative_y n h (fun _ _ => c) i j = 0 := by
  unfold partial_derivative_y
  split_ifs <;> simp

lemma laplace_const (n : ℕ) (h c : α) (i j : ℕ) :
    laplace n h (fun _ _ => c) i j = 0 := by
  unfold laplace
  split_ifs with hin
  · ring_nf
  · rfl

end OperatorLemmas

/-- C3: for every scalar field `f` and every interior point `(i,j)` with
`1 ≤ i,j ≤ N-2`, `partial_x(f)[i,j] = (f[i+1,j] - f[i-1,j])/(2h)`,
`partial_y(f)[i,j] = (f[i,j+1] - f[i,j-1])/(2h)`, and
`laplacian(f)[i,j] = (f[i-1,j] + f[i,j-1] - 4 f[i,j] + f[i+1,j] + f[i,j+1]) / h²`,
where `h` is the uniform grid spacing. -/
theorem interior_stencil_formulas {α : Type} [Field α] (n : ℕ) (h : α) (f : SField α)
    (i j : ℕ) (hi1 : 1 ≤ i) (hi2 : i ≤ n - 2) (hj1 : 1 ≤ j) (hj2 : j ≤ n - 2) :
    partial_derivative_x n h f i j = (f (i + 1) j - f (i - 1) j) / (2 * h)
      ∧ partial_derivative_y n h f i j = (f i (j + 1) - f i (j - 1)) / (2 * h)
      ∧ laplace n h f i j
          = (f (i - 1) j + f i (j - 1) - 4 * f i j + f (i + 1) j + f i (j + 1)) / h ^ 2 := by
  have hin : isInterior n i j := ⟨⟨hi1, hi2⟩, ⟨hj1, hj2⟩⟩
  refine ⟨?_, ?_, ?_⟩ <;>
    simp only [partial_derivative_x, partial_derivative_y, laplace, if_pos hin]

/-- Witness for C3 at the code's grid size `n = 41`, `h = 1/40`, on the field
`f (i, j) = i * j` at the interior point `(1, 1)`. -/
theorem interior_stencil_formulas_witness :
    (1 ≤ 1 ∧ 1 ≤ 41 - 2)
      ∧ (partial_derivative_x 41 ((1 : ℚ) / 40) (fun a b => (a : ℚ) * b) 1 1
            = (((2 : ℕ) : ℚ) * 1 - ((0 : ℕ) : ℚ) * 1) / (2 * (1 / 40))
          ∧ partial_derivative_y 41 ((1 : ℚ) / 40) (fun a b => (a : ℚ) * b) 1 1
            = (((1 : ℕ) : ℚ) * 2 - ((1 : ℕ) : ℚ) * 0) / (2 * (1 / 40))
          ∧ laplace 41 ((1 : ℚ) / 40) (fun a b => (a : ℚ) * b) 1 1
            = (((0 : ℕ) : ℚ) * 1 + ((1 : ℕ) : ℚ) * 0 - 4 * (((1 : ℕ) : ℚ) * 1)
                + ((2 : ℕ) : ℚ) * 1 + ((1 : ℕ) : ℚ) * 2) / ((1 : ℚ) / 40) ^ 2) :=
  ⟨⟨by decide, by decide⟩,
    interior_stencil_formulas 41 ((1 : ℚ) / 40) (fun a b => (a : ℚ) * b) 1 1
      (by decide) (by decide) (by decide) (by decide)⟩

/-- C4: every differential operator (partial_x, partial_y, gradient, divergence,
laplacian, curl) returns exactly zero at every boundary index, i.e. whenever
`i ∈ {0, n-1}` or `j ∈ {0, n-1}`; only the interior is computed. -/
theorem boundary_entries_zero {α : Type} [Field α] (n : ℕ) (h : α)
    (f : SField α) (v : VField α) (i j : ℕ)
    (hb : i = 0 ∨ i = n - 1 ∨ j = 0 ∨ j = n - 1) :
    partial_derivative_x n h f i j = 0
      ∧ partial_derivative_y n h f i j = 0
      ∧ gradient n h f i j = (0, 0)
      ∧ divergence n h v i j = 0
      ∧ laplace n h f i j = 0
      ∧ curl_2d n h v i j = 0 := by
  have hni := not_isInterior_of_boundary (n := n) hb
  simp only [partial_derivative_x, partial_derivative_y, laplace, gradient, divergence,
    curl_2d, if_neg hni]
  norm_num

/-- Witness for C4 at `n = 41`, boundary point `(0, 5)`, on concrete fields. -/
theorem boundary_entries_zero_witness :
    ((0 : ℕ) = 0 ∨ (0 : ℕ) = 41 - 1 ∨ (5 : ℕ) = 0 ∨ (5 : ℕ) = 41 - 1)
      ∧ (partial_derivative_x 41 ((1 : ℚ) / 40) (fun a b => (a : ℚ) + b) 0 5 = 0
          ∧ partial_derivative_y 41 ((1 : ℚ) / 40) (fun a b => (a : ℚ) + b) 0 5 = 0
          ∧ gradient 41 ((1 : ℚ) / 40) (fun a b => (a : ℚ) + b) 0 5 = (0, 0)
          ∧ divergence 41 ((1 : ℚ) / 40) (fun a b => ((a : ℚ), (b : ℚ))) 0 5 = 0
          ∧ laplace 41 ((1 : ℚ) / 40) (fun a b => (a : ℚ) + b) 0 5 = 0
          ∧ curl_2d 41 ((1 : ℚ) / 40) (fun a b => ((a : ℚ), (b : ℚ))) 0 5 = 0) :=
  ⟨Or.inl rfl,
    boundary_entries_zero 41 ((1 : ℚ) / 40) (fun a b => (a : ℚ) + b)
      (fun a b => ((a : ℚ), (b : ℚ))) 0 5 (Or.inl rfl)⟩

/-- C5: on uniformly constant fields, gradient, divergence (of a constant vector
field) and the laplacian vanish at every grid point (in particular at all interior
points); each operator is linear; and each maps the uniformly-zero field to the
uniformly-zero field. -/
theorem operators_constant_linear_zero {α : Type} [Field α] (n : ℕ) (h c d a : α)
    (f g : SField α) (w z : VField α) (i j : ℕ) :
    gradient n h (fun _ _ => c) i j = (0, 0)
      ∧ divergence n h (fun _ _ => (c, d)) i j = 0
      ∧ laplace n h (fun _ _ => c) i j = 0
      ∧ partial_derivative_x n h (fun p q => a * f p q + g p q) i j
          = a * partial_derivative_x n h f i j + partial_derivative_x n h g i j
      ∧ partial_derivative_y n h (fun p q => a * f p q + g p q) i j
          = a * partial_derivative_y n h f i j + partial_derivative_y n h g i j
      ∧ laplace n h (fun p q => a * f p q + g p q) i j
          = a * laplace n h f i j + laplace n h g i j
      ∧ gradient n h (fun p q => a * f p q + g p q) i j
          = (a * (gradient n h f i j).1 + (gradient n h g i j).1,
             a * (gradient n h f i j).2 + (gradient n h g i j).2)
      ∧ divergence n h (fun p q => (a * (w p q).1 + (z p q).1, a * (w p q).2 + (z p q).2)) i j
          = a * divergence n h w i j + divergence n h z i j
      ∧ gradient n h (fun _ _ => 0) i j = (0, 0)
      ∧ divergence n h (fun _ _ => (0, 0)) i j = 0
      ∧ laplace n h (fun _ _ => 0) i j = 0 := by
  refine ⟨?_, ?_, laplace_const n h c i j, pdx_linear n h a f g i j,
    pdy_linear n h a f g i j, laplace_linear n h a f g i j, ?_, ?_, ?_, ?_,
    laplace_const n h 0 i j⟩
  · simp only [gradient, pdx_const, pdy_const]
  · simp only [divergence, pdx_const, pdy_const, add_zero]
  · simp only [gradient, Prod.mk.injEq]
    exact ⟨pdx_linear n h a f g i j, pdy_linear n h a f g i j⟩
  · simp only [divergence]
    rw [pdx_linear n h a (fun a b => (w a b).1) (fun a b => (z a b).1) i j,
      pdy_linear n h a (fun a b => (w a b).2) (fun a b => (z a b).2) i j]
    ring
  · simp only [gradient, pdx_const, pdy_const]
  · simp only [divergence, pdx_const, pdy_const, add_zero]

/-- `np.clip(v, lo, hi)`: clamp `v` into `[lo, hi]`. -/
def npClip (v lo hi : ℚ) : ℚ := min (max v lo) hi

/-- The backtraced departure position of grid point `(i, j)`:
`clip(coordinates - TIME_STEP_LENGTH * vector_field, 0, DOMAIN_SIZE)`, where
`coordinates[i, j] = (i * h, j * h)`. -/
def backtraced_position (h dt size : ℚ) (v : VField ℚ) (i j : ℕ) : ℚ × ℚ :=
  (npClip ((i : ℚ) * h - dt * (v i j).1) 0 size,
   npClip ((j : ℚ) * h - dt * (v i j).2) 0 size)

/-- Bilinear interpolation of a scalar field on the uniform `n`-point grid with
spacing `h` (the interpolation `scipy.interpolate.interpn` performs on the regular
grid `x = y = linspace(0, size, n)` with its default linear method): locate the cell
`[i0, i0+1] × [j0, j0+1]` containing the query point, with `i0` clamped to
`[0, n-2]`, and blend the four corner values by the fractional offsets. -/
def interpBilinear (n : ℕ) (h : ℚ) (f : SField ℚ) (p q : ℚ) : ℚ :=
  let i0 : ℕ := min (Int.toNat ⌊p / h⌋) (n - 2)
  let j0 : ℕ := min (Int.toNat ⌊q / h⌋) (n - 2)
  let fx : ℚ := p / h - (i0 : ℚ)
  let fy : ℚ := q / h - (j0 : ℚ)
  (1 - fx) * (1 - fy) * f i0 j0 + (1 - fx) * fy * f i0 (j0 + 1)
    + fx * (1 - fy) * f (i0 + 1) j0 + fx * fy * f (i0 + 1) (j0 + 1)

/-- `advect`: semi-Lagrangian advection of a scalar field — sample the field at the
clamped backtraced departure position of every grid point. -/
def advect (n : ℕ) (h dt size : ℚ) (f : SField ℚ) (v : VField ℚ) : SField ℚ :=
  fun i j =>
    interpBilinear n h f (backtraced_position h dt size v i j).1
      (backtraced_position h dt size v i j).2

/-- Advection of a vector field: `interpn` interpolates the trailing component axis
independently, so each component is advected as a scalar field. -/
def advectV (n : ℕ) (h dt size : ℚ) (w : VField ℚ) (v : VField ℚ) : VField ℚ :=
  fun i j =>
    (advect n h dt size (fun a b => (w a b).1) v i j,
     advect n h dt size (fun a b => (w a b).2) v i j)

/-- Sampling the bilinear interpolant exactly at the grid node `(k*h, l*h)` of the
code's 41-point grid with `h = 1/40` reproduces the stored node value. -/
lemma interpBilinear_node (f : SField ℚ) (k l : ℕ) (hk : k ≤ 40) (hl : l ≤ 40) :
    interpBilinear 41 (1 / 40) f ((k : ℚ) * (1 / 40)) ((l : ℚ) * (1 / 40)) = f k l := by
  have hdiv : ∀ m : ℕ, ((m : ℚ) * (1 / 40)) / (1 / 40) = (m : ℚ) := by
    intro m
    rw [mul_div_assoc, div_self (by norm_num), mul_one]
  unfold interpBilinear
  simp only [hdiv, Int.floor_natCast, Int.toNat_natCast]
  rcases Nat.lt_or_ge k 40 with hk' | hk'
  · have hmink : min k (41 - 2) = k := by omega
    rcases Nat.lt_or_ge l 40 with hl' | hl'
    · have hminl : min l (41 - 2) = l := by omega
      rw [hmink, hminl]
      ring_nf
    · have hl40 : l = 40 := by omega
      subst hl40
      rw [hmink]
      norm_num
  · have hk40 : k = 40 := by omega
    subst hk40
    rcases Nat.lt_or_ge l 40 with hl' | hl'
    · have hminl : min l (41 - 2) = l := by omega
      rw [hminl]
      norm_num
    · have hl40 : l = 40 := by omega
      subst hl40
      norm_num

/-- With a uniformly zero transport velocity the backtraced position of a grid point
of the code's grid is the point itself (the clamp is a no-op). -/
lemma backtraced_zero (i j : ℕ) (hi : i ≤ 40) (hj : j ≤ 40) :
    backtraced_position (1 / 40) (1 / 10) 1 (fun _ _ => (0, 0)) i j
      = ((i : ℚ) * (1 / 40), (j : ℚ) * (1 / 40)) := by
  have hcl : ∀ m : ℕ, m ≤ 40 → npClip ((m : ℚ) * (1 / 40) - (1 / 10) * 0) 0 1
      = (m : ℚ) * (1 / 40) := by
    intro m hm
    have h0 : (0 : ℚ) ≤ (m : ℚ) * (1 / 40) := by positivity
    have h1 : (m : ℚ) * (1 / 40) ≤ 1 := by
      have : (m : ℚ) ≤ 40 := by exact_mod_cast hm
      nlinarith
    unfold npClip
    rw [mul_zero, sub_zero, max_eq_left h0, min_eq_left h1]
  unfold backtraced_position
  rw [hcl i hi, hcl j hj]

/-- C6: advecting any field (scalar or vector) with a uniformly zero transport
velocity on the code's grid (`n = 41`, `h = 1/40`, `dt = 1/10`, domain `[0,1]`)
returns the field unchanged at every grid point: the backtraced departure position
is the grid coordinate itself (the clamp is a no-op), and interpolation at a grid
node reproduces the node value. -/
theorem advect_zero_velocity_identity (f : SField ℚ) (w : VField ℚ) (i j : ℕ)
    (hi : i ≤ 40) (hj : j ≤ 40) :
    backtraced_position (1 / 40) (1 / 10) 1 (fun _ _ => (0, 0)) i j
        = ((i : ℚ) * (1 / 40), (j : ℚ) * (1 / 40))
      ∧ advect 41 (1 / 40) (1 / 10) 1 f (fun _ _ => (0, 0)) i j = f i j
      ∧ advectV 41 (1 / 40) (1 / 10) 1 w (fun _ _ => (0, 0)) i j = w i j := by
  have hbt := backtraced_zero i j hi hj
  have hs : ∀ g : SField ℚ, advect 41 (1 / 40) (1 / 10) 1 g (fun _ _ => (0, 0)) i j
      = g i j := by
    intro g
    unfold advect
    rw [hbt]
    exact interpBilinear_node g i j hi hj
  refine ⟨hbt, hs f, ?_⟩
  unfold advectV
  rw [hs (fun a b => (w a b).1), hs (fun a b => (w a b).2)]

/-- Witness for C6 at the grid point `(3, 7)` on concrete fields. -/
theorem advect_zero_velocity_identity_witness :
    ((3 : ℕ) ≤ 40 ∧ (7 : ℕ) ≤ 40)
      ∧ (backtraced_position (1 / 40) (1 / 10) 1 (fun _ _ => (0, 0)) 3 7
            = (((3 : ℕ) : ℚ) * (1 / 40), ((7 : ℕ) : ℚ) * (1 / 40))
          ∧ advect 41 (1 / 40) (1 / 10) 1 (fun a b => (a : ℚ) + 2 * b)
              (fun _ _ => (0, 0)) 3 7 = ((3 : ℕ) : ℚ) + 2 * ((7 : ℕ) : ℚ)
          ∧ advectV 41 (1 / 40) (1 / 10) 1 (fun a b => ((a : ℚ), (b : ℚ)))
              (fun _ _ => (0, 0)) 3 7 = (((3 : ℕ) : ℚ), ((7 : ℕ) : ℚ))) :=
  ⟨⟨by decide, by decide⟩,
    advect_zero_velocity_identity (fun a b => (a : ℚ) + 2 * b)
      (fun a b => ((a : ℚ), (b : ℚ))) 3 7 (by decide) (by decide)⟩

/-- C7: for every spacing, time step, transport velocity field and grid point, each
coordinate of the backtraced departure position lies in `[0, DOMAIN_SIZE] = [0, 1]`:
the position is clamped before sampling, so the interpolation is never queried
outside the domain. -/
theorem backtraced_position_in_domain (h dt : ℚ) (v : VField ℚ) (i j : ℕ) :
    0 ≤ (backtraced_position h dt DOMAIN_SIZE v i j).1
      ∧ (backtraced_position h dt DOMAIN_SIZE v i j).1 ≤ DOMAIN_SIZE
      ∧ 0 ≤ (backtraced_position h dt DOMAIN_SIZE v i j).2
      ∧ (backtraced_position h dt DOMAIN_SIZE v i j).2 ≤ DOMAIN_SIZE := by
  have hbnd : ∀ a : ℚ, 0 ≤ npClip a 0 DOMAIN_SIZE ∧ npClip a 0 DOMAIN_SIZE ≤ DOMAIN_SIZE := by
    intro a
    unfold npClip
    constructor
    · refine le_min (le_max_right a 0) ?_
      norm_num [DOMAIN_SIZE]
    · exact min_le_right _ _
  exact ⟨(hbnd _).1, (hbnd _).2, (hbnd _).1, (hbnd _).2⟩

/-- The rectangular forcing sub-region `0.4 < x < 0.6`, `0.1 < y < 0.3`. -/
def in_forcing_region (p : ℚ × ℚ) : Prop :=
  0.4 < p.1 ∧ p.1 < 0.6 ∧ 0.1 < p.2 ∧ p.2 < 0.3

instance (p : ℚ × ℚ) : Decidable (in_forcing_region p) := by
  unfold in_forcing_region; infer_instance

/-- `forcing_function`: time-decaying body force `time_decay * [0, 1]` inside the
sub-region, `time_decay * [0, 0]` outside, with `time_decay = max(2.0 - 0.5*time, 0)`. -/
def forcing_function (time : ℚ) (p : ℚ × ℚ) : ℚ × ℚ :=
  let time_decay := max (2 - 0.5 * time) 0
  if in_forcing_region p then (time_decay * 0, time_decay * 1)
  else (time_decay * 0, time_decay * 0)

/-- Step (1) of the pipeline: `velocities_prev + TIME_STEP_LENGTH * (forces + external_forces)`. -/
def apply_forces (dt : ℚ) (vprev forces external : VField ℚ) : VField ℚ :=
  fun i j =>
    ((vprev i j).1 + dt * ((forces i j).1 + (external i j).1),
     (vprev i j).2 + dt * ((forces i j).2 + (external i j).2))

/-- The velocity after step (1) of the first time step (simulated time `0.1`),
starting from zero velocity, with the body force evaluated at the grid coordinates
`(i*h, j*h)` and no external force. -/
def step1_velocity : VField ℚ :=
  apply_forces TIME_STEP_LENGTH (fun _ _ => (0, 0))
    (fun a b => forcing_function (1 / 10) ((a : ℚ) * element_length, (b : ℚ) * element_length))
    (fun _ _ => (0, 0))

/-- C9: at simulated time `t = 0.1` the decay factor is
`max(2.0 - 0.5*t, 0) = 1.95`, the forcing function returns `(0, 1.95)` at every
point strictly inside `x ∈ (0.4, 0.6), y ∈ (0.1, 0.3)` and `(0, 0)` elsewhere, and
after step 1's force application from zero velocity with no other forces, the
y-velocity is nonzero exactly at the grid points inside that sub-region while the
x-velocity stays zero. -/
theorem forcing_at_first_step (p : ℚ × ℚ) (i j : ℕ) :
    max (2 - 0.5 * (1 / 10 : ℚ)) 0 = 39 / 20
      ∧ forcing_function (1 / 10) p
          = (if in_forcing_region p then ((0 : ℚ), (39 / 20 : ℚ)) else (0, 0))
      ∧ (step1_velocity i j).1 = 0
      ∧ ((step1_velocity i j).2 ≠ 0
          ↔ in_forcing_region ((i : ℚ) * element_length, (j : ℚ) * element_length)) := by
  have hdecay : max (2 - 0.5 * (1 / 10 : ℚ)) 0 = 39 / 20 := by
    rw [max_eq_left (by norm_num)]; norm_num
  have hforce : ∀ q : ℚ × ℚ, forcing_function (1 / 10) q
      = (if in_forcing_region q then ((0 : ℚ), (39 / 20 : ℚ)) else (0, 0)) := by
    intro q
    unfold forcing_function
    rw [hdecay]
    split_ifs <;> norm_num
  refine ⟨hdecay, hforce p, ?_, ?_⟩
  · unfold step1_velocity apply_forces
    simp only [hforce]
    split_ifs <;> norm_num
  · unfold step1_velocity apply_forces
    simp only [hforce]
    split_ifs with hreg
    · exact iff_of_true (by norm_num [TIME_STEP_LENGTH]) hreg
    · exact iff_of_false (by norm_num [TIME_STEP_LENGTH]) hreg

/-- Module-level constant `KINEMATIC_VISCOSITY = 0.0001`. -/
def KINEMATIC_VISCOSITY : ℝ := 0.0001

/-- Module-level constant `SMAGORINSKY_CONSTANT = 0.1`. -/
def SMAGORINSKY_CONSTANT : ℝ := 0.1

/-- `compute_strain_rate`: strain-rate tensor magnitude
`sqrt(2 (S11² + S22² + 2 S12²))` with `S11 = du/dx`, `S22 = dv/dy`,
`S12 = 0.5 (du/dy + dv/dx)` from the central-difference partials. -/
noncomputable def compute_strain_rate (n : ℕ) (h : ℝ) (velocity_field : VField ℝ) : SField ℝ :=
  fun i j =>
    let du_dx := partial_derivative_x n h (fun a b => (velocity_field a b).1) i j
    let dv_dy := partial_derivative_y n h (fun a b => (velocity_field a b).2) i j
    let du_dy := partial_derivative_y n h (fun a b => (velocity_field a b).1) i j
    let dv_dx := partial_derivative_x n h (fun a b => (velocity_field a b).2) i j
    let S11 := du_dx
    let S22 := dv_dy
    let S12 := 0.5 * (du_dy + dv_dx)
    Real.sqrt (2 * (S11 ^ 2 + S22 ^ 2 + 2 * S12 ^ 2))

/-- `compute_turbulent_viscosity`: Smagorinsky eddy viscosity
`(SMAGORINSKY_CONSTANT * element_length)² * |S|`. -/
noncomputable def compute_turbulent_viscosity (n : ℕ) (h : ℝ) (v : VField ℝ) : SField ℝ :=
  fun i j => (SMAGORINSKY_CONSTANT * h) ^ 2 * compute_strain_rate n h v i j

/-- The `effective_viscosity` local of `diffusion_operator_turbulent`:
`KINEMATIC_VISCOSITY + turbulent_viscosity`, pointwise. -/
noncomputable def effective_viscosity (n : ℕ) (h : ℝ) (v : VField ℝ) : SField ℝ :=
  fun i j => KINEMATIC_VISCOSITY + compute_turbulent_viscosity n h v i j

/-- `diffusion_operator_turbulent`: for each velocity component `u`,
`u - dt * divergence(effective_viscosity * gradient(u))`. -/
noncomputable def diffusion_operator_turbulent (n : ℕ) (h dt : ℝ) (v : VField ℝ) : VField ℝ :=
  fun i j =>
    ((v i j).1 - dt * divergence n h (fun a b =>
        (effective_viscosity n h v a b * (gradient n h (fun p q => (v p q).1) a b).1,
         effective_viscosity n h v a b * (gradient n h (fun p q => (v p q).1) a b).2)) i j,
     (v i j).2 - dt * divergence n h (fun a b =>
        (effective_viscosity n h v a b * (gradient n h (fun p q => (v p q).2) a b).1,
         effective_viscosity n h v a b * (gradient n h (fun p q => (v p q).2) a b).2)) i j)

/-- Modelled from the spec's formula `S11 = du/dx` (refinement reference). -/
noncomputable def spec_S11 (n : ℕ) (h : ℝ) (v : VField ℝ) : SField ℝ :=
  partial_derivative_x n h (fun a b => (v a b).1)

/-- Modelled from the spec's formula `S22 = dv/dy` (refinement reference). -/
noncomputable def spec_S22 (n : ℕ) (h : ℝ) (v : VField ℝ) : SField ℝ :=
  partial_derivative_y n h (fun a b => (v a b).2)

/-- Modelled from the spec's formula `S12 = ½(du/dy + dv/dx)` (refinement reference). -/
noncomputable def spec_S12 (n : ℕ) (h : ℝ) (v : VField ℝ) : SField ℝ :=
  fun i j =>
    (partial_derivative_y n h (fun a b => (v a b).1) i j
      + partial_derivative_x n h (fun a b => (v a b).2) i j) / 2

/-- Modelled from the spec's formula `|S| = sqrt(2 (S11² + S22² + 2 S12²))`
(refinement reference). -/
noncomputable def spec_strain_rate_magnitude (n : ℕ) (h : ℝ) (v : VField ℝ) : SField ℝ :=
  fun i j =>
    Real.sqrt (2 * (spec_S11 n h v i j ^ 2 + spec_S22 n h v i j ^ 2
      + 2 * spec_S12 n h v i j ^ 2))

/-- Modelled from the spec's formula `ν_t = (C_s · h)² · |S|` with `C_s = 0.1`
(refinement reference). -/
noncomputable def spec_eddy_viscosity (n : ℕ) (h : ℝ) (v : VField ℝ) : SField ℝ :=
  fun i j => ((0.1 : ℝ) * h) ^ 2 * spec_strain_rate_magnitude n h v i j

/-- C8: the turbulence model computes exactly the spec's strain-rate components and
magnitude (`S11 = du/dx`, `S22 = dv/dy`, `S12 = ½(du/dy + dv/dx)`,
`|S| = sqrt(2 (S11² + S22² + 2 S12²))`), the eddy viscosity `ν_t = (C_s h)² |S|`
with `C_s = 0.1`, and the turbulent diffusion operator uses the pointwise effective
viscosity `ν_eff = ν_molecular + ν_t` on each component's gradient. -/
theorem smagorinsky_model_formulas (n : ℕ) (h dt : ℝ) (v : VField ℝ) (i j : ℕ) :
    compute_strain_rate n h v i j = spec_strain_rate_magnitude n h v i j
      ∧ compute_turbulent_viscosity n h v i j = spec_eddy_viscosity n h v i j
      ∧ SMAGORINSKY_CONSTANT = 0.1
      ∧ effective_viscosity n h v i j
          = KINEMATIC_VISCOSITY + compute_turbulent_viscosity n h v i j
      ∧ diffusion_operator_turbulent n h dt v i j
          = ((v i j).1 - dt * divergence n h (fun a b =>
                ((KINEMATIC_VISCOSITY + spec_eddy_viscosity n h v a b)
                    * partial_derivative_x n h (fun p q => (v p q).1) a b,
                 (KINEMATIC_VISCOSITY + spec_eddy_viscosity n h v a b)
                    * partial_derivative_y n h (fun p q => (v p q).1) a b)) i j,
             (v i j).2 - dt * divergence n h (fun a b =>
                ((KINEMATIC_VISCOSITY + spec_eddy_viscosity n h v a b)
                    * partial_derivative_x n h (fun p q => (v p q).2) a b,
                 (KINEMATIC_VISCOSITY + spec_eddy_viscosity n h v a b)
                    * partial_derivative_y n h (fun p q => (v p q).2) a b)) i j) := by
  have hstrain : ∀ a b : ℕ, compute_strain_rate n h v a b
      = spec_strain_rate_magnitude n h v a b := by
    intro a b
    unfold compute_strain_rate spec_strain_rate_magnitude spec_S11 spec_S22 spec_S12
    ring_nf
  have heddy : ∀ a b : ℕ, compute_turbulent_viscosity n h v a b
      = spec_eddy_viscosity n h v a b := by
    intro a b
    unfold compute_turbulent_viscosity spec_eddy_viscosity SMAGORINSKY_CONSTANT
    rw [hstrain]
  have hν : ∀ a b : ℕ, effective_viscosity n h v a b
      = KINEMATIC_VISCOSITY + spec_eddy_viscosity n h v a b := by
    intro a b
    unfold effective_viscosity
    rw [heddy]
  have hcomp : ∀ u : SField ℝ,
      (fun a b => (effective_viscosity n h v a b * (gradient n h u a b).1,
                   effective_viscosity n h v a b * (gradient n h u a b).2))
        = (fun a b => ((KINEMATIC_VISCOSITY + spec_eddy_viscosity n h v a b)
                          * partial_derivative_x n h u a b,
                       (KINEMATIC_VISCOSITY + spec_eddy_viscosity n h v a b)
                          * partial_derivative_y n h u a b)) := by
    intro u
    funext a b
    rw [hν]
    rfl
  refine ⟨hstrain i j, heddy i j, rfl, by rw [effective_viscosity, heddy], ?_⟩
  unfold diffusion_operator_turbulent
  rw [hcomp (fun p q => (v p q).1), hcomp (fun p q => (v p q).2)]

/-- C10: for every velocity field, spacing and grid point, the turbulent viscosity
is nonnegative, so the effective viscosity used by the turbulent diffusion operator
is at least the molecular kinematic viscosity. -/
theorem turbulent_viscosity_nonneg (n : ℕ) (h : ℝ) (v : VField ℝ) (i j : ℕ) :
    0 ≤ compute_turbulent_viscosity n h v i j
      ∧ KINEMATIC_VISCOSITY ≤ effective_viscosity n h v i j := by
  have hsqrt : (0 : ℝ) ≤ compute_strain_rate n h v i j := by
    unfold compute_strain_rate
    exact Real.sqrt_nonneg _
  have hnt : (0 : ℝ) ≤ compute_turbulent_viscosity n h v i j := by
    unfold compute_turbulent_viscosity
    exact mul_nonneg (sq_nonneg _) hsqrt
  refine ⟨hnt, ?_⟩
  unfold effective_viscosity
  linarith

/-- The obstacle mask: grid point `(i, j)` lies strictly inside the circle of
radius `0.1` centred at `(0.5, 0.5)`:
`(X - 0.5)² + (Y - 0.5)² < 0.1²` with `X = i*h`, `Y = j*h`. -/
def obstacle_mask (i j : ℕ) : Prop :=
  ((i : ℚ) * element_length - 0.5) ^ 2 + ((j : ℚ) * element_length - 0.5) ^ 2 < 0.1 ^ 2

instance (i j : ℕ) : Decidable (obstacle_mask i j) := by
  unfold obstacle_mask; infer_instance

/-- The per-step simulation state: current velocity and temperature fields. -/
structure SimState where
  vel : VField ℚ
  temp : SField ℚ

/-- A conjugate-gradient solve over a vector field, modelled as an arbitrary
function returning a candidate solution with scipy's integer status flag `info`
(the pair `(x, info)` that `scipy.sparse.linalg.cg` returns; the script keeps
only index `[0]`). -/
abbrev CGSolveV := VField ℚ → VField ℚ × ℤ

/-- A conjugate-gradient solve over a scalar field, returning `(x, info)`. -/
abbrev CGSolveS := SField ℚ → SField ℚ × ℤ

/-- `temperature_step`: advect the temperature with the given velocity, solve the
implicit scalar diffusion system (the solver's status flag is discarded exactly as
the script's `[0]` does), then add the time-scaled source. -/
def temperature_step (cgT : CGSolveS) (temperature : SField ℚ) (velocity_field : VField ℚ)
    (source : SField ℚ) : SField ℚ :=
  let temperature_advected :=
    advect N_POINTS element_length TIME_STEP_LENGTH DOMAIN_SIZE temperature velocity_field
  let temperature_diffused := (cgT temperature_advected).1
  fun i j => temperature_diffused i j + TIME_STEP_LENGTH * source i j

/-- One iteration of the main loop: apply forces, self-advect, solve turbulent
diffusion, solve the pressure Poisson system against the divergence of the diffused
velocity, subtract the pressure gradient, zero the velocity on the obstacle mask,
run the temperature step with the masked velocity, and clamp the temperature on the
obstacle mask to `0.5`.  Each linear solve is an arbitrary `(solution, status)`
function, and its status flag is discarded via `.1` exactly as the script's `[0]`. -/
def step (cgVec : CGSolveV) (cgP cgT : CGSolveS) (forces external : VField ℚ)
    (source : SField ℚ) (s : SimState) : SimState :=
  let velocities_forces_applied := apply_forces TIME_STEP_LENGTH s.vel forces external
  let velocities_advected :=
    advectV N_POINTS element_length TIME_STEP_LENGTH DOMAIN_SIZE
      velocities_forces_applied velocities_forces_applied
  let velocities_diffused := (cgVec velocities_advected).1
  let pressure := (cgP (divergence N_POINTS element_length velocities_diffused)).1
  let velocities_projected : VField ℚ := fun i j =>
    ((velocities_diffused i j).1 - (gradient N_POINTS element_length pressure i j).1,
     (velocities_diffused i j).2 - (gradient N_POINTS element_length pressure i j).2)
  let velocities_masked : VField ℚ := fun i j =>
    if obstacle_mask i j then (0, 0) else velocities_projected i j
  let temperature_next := temperature_step cgT s.temp velocities_masked source
  let temperature_clamped : SField ℚ := fun i j =>
    if obstacle_mask i j then 0.5 else temperature_next i j
  ⟨velocities_masked, temperature_clamped⟩

/-- Running the main loop for a number of steps; `forces k` and `external k` are
the force fields evaluated at the `k`-th step's simulated time. -/
def run (cgVec : CGSolveV) (cgP cgT : CGSolveS) (forces external : ℕ → VField ℚ)
    (source : SField ℚ) : ℕ → SimState → SimState
  | 0, s => s
  | k + 1, s =>
      step cgVec cgP cgT (forces k) (external k) source
        (run cgVec cgP cgT forces external source k s)

/-- One step always ends with the obstacle enforcement, whatever the solvers,
forces, source and incoming state were. -/
lemma step_obstacle (cgVec : CGSolveV) (cgP cgT : CGSolveS) (forces external : VField ℚ)
    (source : SField ℚ) (s : SimState) (i j : ℕ) (hm : obstacle_mask i j) :
    (step cgVec cgP cgT forces external source s).vel i j = (0, 0)
      ∧ (step cgVec cgP cgT forces external source s).temp i j = 0.5 := by
  constructor
  · show (if obstacle_mask i j then ((0 : ℚ), (0 : ℚ)) else _) = (0, 0)
    rw [if_pos hm]
  · show (if obstacle_mask i j then (0.5 : ℚ) else _) = 0.5
    rw [if_pos hm]

/-- C1: at the end of every time step (every `n ≥ 1`), every grid point inside the
obstacle mask has velocity exactly `(0, 0)` and temperature exactly the configured
clamp value `0.5`, for every choice of linear solvers, force fields, source and
initial state — the invariant holds for the whole run. -/
theorem obstacle_invariant_every_step (cgVec : CGSolveV) (cgP cgT : CGSolveS)
    (forces external : ℕ → VField ℚ) (source : SField ℚ) (s : SimState)
    (n : ℕ) (hn : 1 ≤ n) (i j : ℕ) (hm : obstacle_mask i j) :
    (run cgVec cgP cgT forces external source n s).vel i j = (0, 0)
      ∧ (run cgVec cgP cgT forces external source n s).temp i j = 0.5 := by
  obtain ⟨k, rfl⟩ : ∃ k, n = k + 1 := ⟨n - 1, by omega⟩
  exact step_obstacle cgVec cgP cgT (forces k) (external k) source
    (run cgVec cgP cgT forces external source k s) i j hm

/-- Witness for C1 after one step from the zero state with identity solvers, at the
obstacle point `(20, 20)` (the grid point at the obstacle centre `(0.5, 0.5)`). -/
theorem obstacle_invariant_every_step_witness :
    (1 ≤ 1 ∧ obstacle_mask 20 20)
      ∧ ((run (fun v => (v, 0)) (fun p => (p, 0)) (fun t => (t, 0))
            (fun _ _ _ => (0, 0)) (fun _ _ _ => (0, 0)) (fun _ _ => 0) 1
            ⟨fun _ _ => (0, 0), fun _ _ => 0⟩).vel 20 20 = (0, 0)
          ∧ (run (fun v => (v, 0)) (fun p => (p, 0)) (fun t => (t, 0))
            (fun _ _ _ => (0, 0)) (fun _ _ _ => (0, 0)) (fun _ _ => 0) 1
            ⟨fun _ _ => (0, 0), fun _ _ => 0⟩).temp 20 20 = 0.5) :=
  ⟨⟨le_refl 1, by norm_num [obstacle_mask, element_length_eq]⟩,
    obstacle_invariant_every_step (fun v => (v, 0)) (fun p => (p, 0)) (fun t => (t, 0))
      (fun _ _ _ => (0, 0)) (fun _ _ _ => (0, 0)) (fun _ _ => 0)
      ⟨fun _ _ => (0, 0), fun _ _ => 0⟩ 1 (le_refl 1) 20 20
      (by norm_num [obstacle_mask, element_length_eq])⟩

/-- C2 evidence: the per-step state is bit-for-bit identical whether every
conjugate-gradient solve reports convergence (scipy status `info = 0`) or failure
after exhausting its iteration cap (`info = 100 > 0`): the script indexes `[0]` of
`cg`'s `(x, info)` pair, so the status is discarded and non-convergence is never
surfaced — contradicting the claim that it is detected and reported. -/
theorem cg_status_discarded :
    step (fun v => (v, 0)) (fun p => (p, 0)) (fun t => (t, 0))
        (fun _ _ => (0, 0)) (fun _ _ => (0, 0)) (fun _ _ => 0)
        ⟨fun _ _ => (0, 0), fun _ _ => 0⟩
      = step (fun v => (v, 100)) (fun p => (p, 100)) (fun t => (t, 100))
        (fun _ _ => (0, 0)) (fun _ _ => (0, 0)) (fun _ _ => 0)
        ⟨fun _ _ => (0, 0), fun _ _ => 0⟩ := rfl

end Fluid
